import Mathlib

/-!
Shallow embedding of the Wyze bridge frame scanner and packet codecs.

Sources embedded:
* `src/wyze-parser/src/packets.rs` — the packet kinds (`InquiryPacket`,
  `MacPacket`, `VersionPacket`, `SensorCountPacket`, `SensorListPacket`,
  `AuthPacket`), their per-role `parse`/`pack` codecs, and the dispatch
  `PacketPayload::parse` generated by the `PacketPayloadBuilder!` macro.
* `src/wyze-parser/src/main.rs` — the frame scanner `find_msg` built from
  nom's complete combinators.
* `src/wyze/src/hub.rs` — the outbound frame construction in
  `WyzeHub::send`.

Bytes are modelled as `Nat` (wire bytes are `u8`, hence `< 256`); `u16`
wraparound arithmetic is explicit `% 65536`.  Rust `String` values are
modelled by their UTF-8 byte content (`List Nat`); `str::from_utf8`
becomes a validity check `validUtf8`.  Fallible Rust code returns
`Result`, modelled by `PRes`; Rust panics (`.expect`, index out of
bounds, arithmetic overflow with the default debug-profile overflow
checks) are modelled by an explicit `panicked` outcome.
-/

/-- Outcome of fallible Rust code: `Ok`, `Err(())`, or a panic
(`.expect`, out-of-bounds indexing, arithmetic overflow). -/
inductive PRes (α : Type) where
  | ok (a : α)
  | err
  | panicked
deriving DecidableEq

/-- Model of `MessageType` from packets.rs. -/
inductive MessageType where
  | Command
  | Response
  | Ack
deriving DecidableEq

/-- Model of `PacketSyncType` from packets.rs: `Async = 0x53`, `Sync = 0x43`. -/
inductive PacketSyncType where
  | Async
  | Sync
deriving DecidableEq

/-- Model of `PacketSyncType::from_u8` (derived `FromPrimitive`). -/
def PacketSyncType.from_u8 (b : Nat) : Option PacketSyncType :=
  if b = 0x53 then some .Async
  else if b = 0x43 then some .Sync
  else none

/-- A UTF-8 continuation byte (`0x80 ..= 0xBF`). -/
def isCont (b : Nat) : Bool := 0x80 ≤ b ∧ b ≤ 0xBF

/-- UTF-8 validity of a byte sequence, exactly the condition under which
Rust's `std::str::from_utf8` succeeds (RFC 3629: no overlong forms, no
surrogates, maximum scalar `0x10FFFF`). -/
def validUtf8 : List Nat → Bool
  | [] => true
  | b :: rest =>
    if b ≤ 0x7F then validUtf8 rest
    else if 0xC2 ≤ b ∧ b ≤ 0xDF then
      match rest with
      | c1 :: r => isCont c1 && validUtf8 r
      | [] => false
    else if b = 0xE0 then
      match rest with
      | c1 :: c2 :: r => (0xA0 ≤ c1 && c1 ≤ 0xBF) && isCont c2 && validUtf8 r
      | _ => false
    else if (0xE1 ≤ b ∧ b ≤ 0xEC) ∨ b = 0xEE ∨ b = 0xEF then
      match rest with
      | c1 :: c2 :: r => isCont c1 && isCont c2 && validUtf8 r
      | _ => false
    else if b = 0xED then
      match rest with
      | c1 :: c2 :: r => (0x80 ≤ c1 && c1 ≤ 0x9F) && isCont c2 && validUtf8 r
      | _ => false
    else if b = 0xF0 then
      match rest with
      | c1 :: c2 :: c3 :: r =>
        (0x90 ≤ c1 && c1 ≤ 0xBF) && isCont c2 && isCont c3 && validUtf8 r
      | _ => false
    else if 0xF1 ≤ b ∧ b ≤ 0xF3 then
      match rest with
      | c1 :: c2 :: c3 :: r => isCont c1 && isCont c2 && isCont c3 && validUtf8 r
      | _ => false
    else if b = 0xF4 then
      match rest with
      | c1 :: c2 :: c3 :: r =>
        (0x80 ≤ c1 && c1 ≤ 0x8F) && isCont c2 && isCont c3 && validUtf8 r
      | _ => false
    else false

/-- ASCII bytes of the text "0.0.0.30". -/
def fwVersionBytes : List Nat := [0x30, 0x2E, 0x30, 0x2E, 0x30, 0x2E, 0x33, 0x30]

/-- ASCII bytes of the text "V1.4". -/
def hwVersionBytes : List Nat := [0x56, 0x31, 0x2E, 0x34]

/-- ASCII bytes of the text "Dongle". -/
def hwTypeBytes : List Nat := [0x44, 0x6F, 0x6E, 0x67, 0x6C, 0x65]

/-- ASCII bytes of the text "UD3U". -/
def magicBytes : List Nat := [0x55, 0x44, 0x33, 0x55]

/-- ASCII bytes of the text "abc". -/
def abcBytes : List Nat := [0x61, 0x62, 0x63]

/-- ASCII bytes of the text "777AF9BF". -/
def macBytes : List Nat := [0x37, 0x37, 0x37, 0x41, 0x46, 0x39, 0x42, 0x46]

/-- ASCII bytes of the text "777B1962". -/
def sensorMacBytes : List Nat := [0x37, 0x37, 0x37, 0x42, 0x31, 0x39, 0x36, 0x32]

/-- Model of `InquiryPacket` from packets.rs. -/
inductive InquiryPacket where
  | Command
  | Response (value : Nat)
  | Ack
deriving DecidableEq

namespace InquiryPacket

def CMD_ID : Nat := 0x27
def RSP_ID : Nat := 0x28

/-- Model of `InquiryPacket::parse`. -/
def parse (input : List Nat) : MessageType → PRes InquiryPacket
  | .Command => .ok .Command
  | .Response =>
    match input with
    | v :: _ => .ok (.Response v)
    | [] => .err
  | .Ack => .ok .Ack

/-- Model of `InquiryPacket::pack`. -/
def pack : InquiryPacket → List Nat
  | .Command => []
  | .Response v => [v]
  | .Ack => []

/-- Model of `InquiryPacket::message_type`. -/
def message_type : InquiryPacket → MessageType
  | .Command => .Command
  | .Response _ => .Response
  | .Ack => .Ack

end InquiryPacket

/-- Model of `MacPacket` from packets.rs; the `mac: String` field is modelled by
its UTF-8 byte content. -/
inductive MacPacket where
  | Command
  | Response (mac : List Nat)
  | Ack
deriving DecidableEq

namespace MacPacket

def CMD_ID : Nat := 0x04
def RSP_ID : Nat := 0x05

/-- Model of `MacPacket::parse`: the Response arm is `str::from_utf8(input)`,
failing with `Err(())` on invalid UTF-8. -/
def parse (input : List Nat) : MessageType → PRes MacPacket
  | .Command => .ok .Command
  | .Response => if validUtf8 input then .ok (.Response input) else .err
  | .Ack => .ok .Ack

/-- Model of `MacPacket::pack`: `mac.as_bytes().to_vec()`. -/
def pack : MacPacket → List Nat
  | .Command => []
  | .Response mac => mac
  | .Ack => []

/-- Model of `MacPacket::message_type`. -/
def message_type : MacPacket → MessageType
  | .Command => .Command
  | .Response _ => .Response
  | .Ack => .Ack

/-- A `MacPacket` value is constructible in the source language iff its
`String` field holds valid UTF-8 (a Rust `String` invariant). -/
def wf : MacPacket → Bool
  | .Response mac => validUtf8 mac
  | _ => true

end MacPacket

/-- Model of `VersionPacket` from packets.rs; the four `String` fields are
modelled by their UTF-8 byte content. -/
inductive VersionPacket where
  | Command
  | Response (fw_version hw_version hw_type magic : List Nat)
  | Ack
deriving DecidableEq

namespace VersionPacket

def CMD_ID : Nat := 0x16
def RSP_ID : Nat := 0x17

/-- Model of `VersionPacket::parse`: the Response arm is
`str::from_utf8(input)?` then `split(" ")` then unchecked indexing
`mac[0] .. mac[3]`; with fewer than four fields the indexing panics
(index out of bounds), modelled by `.panicked`. -/
def parse (input : List Nat) : MessageType → PRes VersionPacket
  | .Command => .ok .Command
  | .Response =>
    if validUtf8 input then
      let fields := input.splitOn 0x20
      if fields.length < 4 then .panicked
      else .ok (.Response (fields.getD 0 []) (fields.getD 1 [])
                          (fields.getD 2 []) (fields.getD 3 []))
    else .err
  | .Ack => .ok .Ack

/-- Model of `VersionPacket::pack`: note the Response arm discards all four
fields and returns an empty payload. -/
def pack : VersionPacket → List Nat
  | .Command => []
  | .Response _ _ _ _ => []
  | .Ack => []

/-- Model of `VersionPacket::message_type`. -/
def message_type : VersionPacket → MessageType
  | .Command => .Command
  | .Response _ _ _ _ => .Response
  | .Ack => .Ack

end VersionPacket

/-- Model of `SensorCountPacket` from packets.rs. -/
inductive SensorCountPacket where
  | Command
  | Response (count : Nat)
  | Ack
deriving DecidableEq

namespace SensorCountPacket

def CMD_ID : Nat := 0x2E
def RSP_ID : Nat := 0x2F

/-- Model of `SensorCountPacket::parse`. -/
def parse (input : List Nat) : MessageType → PRes SensorCountPacket
  | .Command => .ok .Command
  | .Response =>
    match input with
    | c :: _ => .ok (.Response c)
    | [] => .err
  | .Ack => .ok .Ack

/-- Model of `SensorCountPacket::pack`. -/
def pack : SensorCountPacket → List Nat
  | .Command => []
  | .Response c => [c]
  | .Ack => []

/-- Model of `SensorCountPacket::message_type`. -/
def message_type : SensorCountPacket → MessageType
  | .Command => .Command
  | .Response _ => .Response
  | .Ack => .Ack

end SensorCountPacket

/-- Model of `SensorListPacket` from packets.rs. -/
inductive SensorListPacket where
  | Command (count : Nat)
  | Response (mac : List Nat)
  | Ack
deriving DecidableEq

namespace SensorListPacket

def CMD_ID : Nat := 0x30
def RSP_ID : Nat := 0x31

/-- Model of `SensorListPacket::parse`. -/
def parse (input : List Nat) : MessageType → PRes SensorListPacket
  | .Command =>
    match input with
    | c :: _ => .ok (.Command c)
    | [] => .err
  | .Response => if validUtf8 input then .ok (.Response input) else .err
  | .Ack => .ok .Ack

/-- Model of `SensorListPacket::pack`. -/
def pack : SensorListPacket → List Nat
  | .Command c => [c]
  | .Response mac => mac
  | .Ack => []

/-- Model of `SensorListPacket::message_type`. -/
def message_type : SensorListPacket → MessageType
  | .Command _ => .Command
  | .Response _ => .Response
  | .Ack => .Ack

/-- A `SensorListPacket` value is constructible in the source language
iff its `String` field holds valid UTF-8. -/
def wf : SensorListPacket → Bool
  | .Response mac => validUtf8 mac
  | _ => true

end SensorListPacket

/-- Model of `AuthPacket` from packets.rs. -/
inductive AuthPacket where
  | Command (completion : Nat)
  | Response
  | Ack
deriving DecidableEq

namespace AuthPacket

def CMD_ID : Nat := 0x14
def RSP_ID : Nat := 0x15

/-- Model of `AuthPacket::parse`. -/
def parse (input : List Nat) : MessageType → PRes AuthPacket
  | .Command =>
    match input with
    | c :: _ => .ok (.Command c)
    | [] => .err
  | .Response => .ok .Response
  | .Ack => .ok .Ack

/-- Model of `AuthPacket::pack`. -/
def pack : AuthPacket → List Nat
  | .Command c => [c]
  | .Response => []
  | .Ack => []

/-- Model of `AuthPacket::message_type`. -/
def message_type : AuthPacket → MessageType
  | .Command _ => .Command
  | .Response => .Response
  | .Ack => .Ack

end AuthPacket

/-- Model of `PacketPayload` — the tagged union produced by the
`PacketPayloadBuilder!` macro over the six packet kinds. -/
inductive PacketPayload where
  | InquiryPacket (p : InquiryPacket)
  | MacPacket (p : MacPacket)
  | VersionPacket (p : VersionPacket)
  | SensorCountPacket (p : SensorCountPacket)
  | SensorListPacket (p : SensorListPacket)
  | AuthPacket (p : AuthPacket)
deriving DecidableEq

/-- Model of `PacketPayload::parse` — the macro-generated dispatch: the wire
identifier is matched against `CMD_ID` then `RSP_ID` of each variant, in
the order the variants are listed in `PacketPayloadBuilder!(...)`; with
`ack` set the Ack sub-shape of the matched variant is parsed; an
unmatched identifier is `Err(())`. -/
def PacketPayload.parse (input : List Nat) (id : Nat) (ack : Bool) :
    PRes PacketPayload :=
  if id = InquiryPacket.CMD_ID then
    match InquiryPacket.parse input (if ack then .Ack else .Command) with
    | .ok p => .ok (.InquiryPacket p)
    | .err => .err
    | .panicked => .panicked
  else if id = InquiryPacket.RSP_ID then
    match InquiryPacket.parse input (if ack then .Ack else .Response) with
    | .ok p => .ok (.InquiryPacket p)
    | .err => .err
    | .panicked => .panicked
  else if id = MacPacket.CMD_ID then
    match MacPacket.parse input (if ack then .Ack else .Command) with
    | .ok p => .ok (.MacPacket p)
    | .err => .err
    | .panicked => .panicked
  else if id = MacPacket.RSP_ID then
    match MacPacket.parse input (if ack then .Ack else .Response) with
    | .ok p => .ok (.MacPacket p)
    | .err => .err
    | .panicked => .panicked
  else if id = VersionPacket.CMD_ID then
    match VersionPacket.parse input (if ack then .Ack else .Command) with
    | .ok p => .ok (.VersionPacket p)
    | .err => .err
    | .panicked => .panicked
  else if id = VersionPacket.RSP_ID then
    match VersionPacket.parse input (if ack then .Ack else .Response) with
    | .ok p => .ok (.VersionPacket p)
    | .err => .err
    | .panicked => .panicked
  else if id = SensorCountPacket.CMD_ID then
    match SensorCountPacket.parse input (if ack then .Ack else .Command) with
    | .ok p => .ok (.SensorCountPacket p)
    | .err => .err
    | .panicked => .panicked
  else if id = SensorCountPacket.RSP_ID then
    match SensorCountPacket.parse input (if ack then .Ack else .Response) with
    | .ok p => .ok (.SensorCountPacket p)
    | .err => .err
    | .panicked => .panicked
  else if id = SensorListPacket.CMD_ID then
    match SensorListPacket.parse input (if ack then .Ack else .Command) with
    | .ok p => .ok (.SensorListPacket p)
    | .err => .err
    | .panicked => .panicked
  else if id = SensorListPacket.RSP_ID then
    match SensorListPacket.parse input (if ack then .Ack else .Response) with
    | .ok p => .ok (.SensorListPacket p)
    | .err => .err
    | .panicked => .panicked
  else if id = AuthPacket.CMD_ID then
    match AuthPacket.parse input (if ack then .Ack else .Command) with
    | .ok p => .ok (.AuthPacket p)
    | .err => .err
    | .panicked => .panicked
  else if id = AuthPacket.RSP_ID then
    match AuthPacket.parse input (if ack then .Ack else .Response) with
    | .ok p => .ok (.AuthPacket p)
    | .err => .err
    | .panicked => .panicked
  else .err

/-- The twelve command/response identifiers registered by
`PacketPayloadBuilder!`, in dispatch order. -/
def registeredIds : List Nat :=
  [InquiryPacket.CMD_ID, InquiryPacket.RSP_ID,
   MacPacket.CMD_ID, MacPacket.RSP_ID,
   VersionPacket.CMD_ID, VersionPacket.RSP_ID,
   SensorCountPacket.CMD_ID, SensorCountPacket.RSP_ID,
   SensorListPacket.CMD_ID, SensorListPacket.RSP_ID,
   AuthPacket.CMD_ID, AuthPacket.RSP_ID]

/-- Model of `PacketHandle` from packets.rs. -/
structure PacketHandle where
  payload : PacketPayload
  sync_type : PacketSyncType
deriving DecidableEq

/-- Model of `PacketHandle::parse`: dispatch the payload and pair it with the
sync type; dispatch errors map to `Err(())`. -/
def PacketHandle.parse (input : List Nat) (id : Nat) (ack : Bool)
    (sync_type : PacketSyncType) : PRes PacketHandle :=
  match PacketPayload.parse input id ack with
  | .ok p => .ok ⟨p, sync_type⟩
  | .err => .err
  | .panicked => .panicked

/-- The raw frame extracted by the scanning part of `find_msg`, before
payload dispatch: resolved sync type, identifier, ack flag, declared
length, payload bytes and the unconsumed remainder of the buffer. -/
structure RawFrame where
  sync_type : PacketSyncType
  id : Nat
  ack : Bool
  length : Nat
  payload : List Nat
  remaining : List Nat
deriving DecidableEq

/-- Result of the scanning part of `find_msg`.  With nom's `complete`
combinators, insufficient input surfaces as `nom::Err::Error` (`err`,
the recoverable "need more bytes" case) while the explicit
`nom::Err::Failure` returns in `find_msg` are `fail`; `panicked` is a
Rust panic. -/
inductive RawRes where
  | ok (f : RawFrame)
  | err
  | fail
  | panicked
deriving DecidableEq

/-- Result of `find_msg` itself. -/
inductive ScanResult where
  | ok (remaining : List Nat) (ph : PacketHandle)
  | err
  | fail
  | panicked
deriving DecidableEq

/-- The `many_till(take(1), alt((tag([0x55,0xAA]), tag([0xAA,0x55]))))`
resynchronization step of `find_msg`: drop bytes until one of the two
orientation markers matches, returning the bytes after the marker;
`none` when the buffer is exhausted without a match
(`nom::Err::Error`).  The matched marker itself is bound to `_source`
in the Rust code and discarded. -/
def findMarker : List Nat → Option (List Nat)
  | [] => none
  | x :: rest =>
    match rest with
    | [] => none
    | y :: rest2 =>
      if (x = 0x55 ∧ y = 0xAA) ∨ (x = 0xAA ∧ y = 0x55) then some rest2
      else findMarker rest

/-- Sixteen-bit wraparound accumulation (`u16::wrapping_add` fold), used by
both the `find_msg` checksum loop and `WyzeHub::send`. -/
def wrapSum (s : Nat) (l : List Nat) : Nat :=
  l.foldl (fun acc x => (acc + x) % 65536) s

/-- The body of `find_msg` shared by the ack and non-ack branches, once
the header triple `(t, a, b)` has been read and `(ack, id, length)`
resolved: the length guard, the payload `take(length - 3)`, the
`be_u16` checksum read and the checksum comparison over
`input[0..length] = t :: a :: b :: payload`.  `length = 2` evaluates
`length - 3` in `u8`, which underflows and panics under the default
debug-profile overflow checks, hence `.panicked`. -/
def scanBody (st : PacketSyncType) (t a b id length : Nat) (ack : Bool)
    (r3 : List Nat) : RawRes :=
  if length < 2 then .fail
  else if length = 2 then .panicked
  else if r3.length < length - 3 then .err
  else
    match r3.drop (length - 3) with
    | c1 :: c2 :: remaining =>
      let payload := r3.take (length - 3)
      if wrapSum 0xFF (t :: a :: b :: payload) = c1 * 256 + c2 then
        .ok ⟨st, id, ack, length, payload, remaining⟩
      else .fail
    | _ => .err

/-- The part of `find_msg` after the marker match: type byte, the two
overloaded header bytes, then the resolution
`if ack_or_id == 0xFF { ack = true; id = length_or_id; length = 3 }
else { ack = false; id = ack_or_id; length = length_or_id }`. -/
def scanAfter (input : List Nat) : RawRes :=
  match input with
  | [] => .err
  | t :: r1 =>
    match PacketSyncType.from_u8 t with
    | none => .fail
    | some st =>
      match r1 with
      | [] => .err
      | a :: r2 =>
        match r2 with
        | [] => .err
        | b :: r3 =>
          if b = 0xFF then scanBody st t a b a 3 true r3
          else scanBody st t a b b a false r3

/-- The scanning part of `find_msg`: resynchronize, then read and
validate one frame. -/
def scanRaw (buf : List Nat) : RawRes :=
  match findMarker buf with
  | some rest => scanAfter rest
  | none => .err

/-- Model of `find_msg` from main.rs.  The final
`PacketHandle::parse(...).expect("Failed to parse")` turns a dispatch
error (unknown identifier or malformed payload) into a panic. -/
def find_msg (buf : List Nat) : ScanResult :=
  match scanRaw buf with
  | .ok f =>
    match PacketHandle.parse f.payload f.id f.ack f.sync_type with
    | .ok ph => .ok f.remaining ph
    | .err => .panicked
    | .panicked => .panicked
  | .err => .err
  | .fail => .fail
  | .panicked => .panicked

/-- The type byte written by `WyzeHub::send`. -/
def typeByte : PacketSyncType → Nat
  | .Sync => 0x43
  | .Async => 0x53

/-- The byte buffer constructed by `WyzeHub::send` (hub.rs): marker
`AA 55`, type byte, length byte `data.len() as u8 + 2`, the packet
bytes `data` (identifier byte followed by the payload), then the
16-bit big-endian wraparound sum of everything written so far, seeded
with 0 (the two marker bytes contribute `0xAA + 0x55 = 0xFF`).  The
length byte is written modulo 256 (release semantics; with overflow
checks `data.len() + 2 ≥ 256` would panic — theorems about this
encoder stay below that bound). -/
def sendBytes (st : PacketSyncType) (data : List Nat) : List Nat :=
  let w := 0xAA :: 0x55 :: typeByte st :: ((data.length % 256 + 2) % 256) :: data
  let ck := wrapSum 0 w
  w ++ [ck / 256 % 256, ck % 256]

/-- A marker match consumes at least the two marker bytes. -/
theorem findMarker_some_length {buf rest : List Nat}
    (h : findMarker buf = some rest) : rest.length + 2 ≤ buf.length := by
  induction buf with
  | nil => simp [findMarker] at h
  | cons x r ih =>
    cases r with
    | nil => simp [findMarker] at h
    | cons y r2 =>
      rw [findMarker] at h
      split at h
      · cases h
        simp
      · have := ih h
        simp at this ⊢
        omega

/-- Appending bytes does not change where the first marker is found. -/
theorem findMarker_extend {buf rest e : List Nat}
    (h : findMarker buf = some rest) :
    findMarker (buf ++ e) = some (rest ++ e) := by
  induction buf with
  | nil => simp [findMarker] at h
  | cons x r ih =>
    cases r with
    | nil => simp [findMarker] at h
    | cons y r2 =>
      by_cases hc : (x = 0x55 ∧ y = 0xAA) ∨ (x = 0xAA ∧ y = 0x55)
      · rw [findMarker] at h
        rw [if_pos hc] at h
        cases h
        simp only [List.cons_append]
        rw [findMarker, if_pos hc]
      · rw [findMarker, if_neg hc] at h
        simp only [List.cons_append]
        rw [findMarker, if_neg hc]
        exact ih h

/-- Inversion of a successful `scanBody`: the resolved length is at
least 3, the payload is exactly `length - 3` bytes, and the trailing
two-byte big-endian checksum matches the seeded wraparound sum. -/
theorem scanBody_ok_inv {st : PacketSyncType} {t a b id len : Nat}
    {ack : Bool} {r3 : List Nat} {f : RawFrame}
    (h : scanBody st t a b id len ack r3 = .ok f) :
    ∃ c1 c2,
      f.sync_type = st ∧ f.id = id ∧ f.ack = ack ∧ f.length = len ∧
      3 ≤ len ∧ len - 3 ≤ r3.length ∧
      f.payload = r3.take (len - 3) ∧
      r3.drop (len - 3) = c1 :: c2 :: f.remaining ∧
      wrapSum 0xFF (t :: a :: b :: f.payload) = c1 * 256 + c2 := by
  unfold scanBody at h
  split at h
  · exact absurd h (by simp)
  · split at h
    · exact absurd h (by simp)
    · split at h
      · exact absurd h (by simp)
      · rename_i hlt hne hdlen
        split at h
        · rename_i c1 c2 rem hdrop
          dsimp only [] at h
          split at h
          · rename_i hck
            cases h
            exact ⟨c1, c2, rfl, rfl, rfl, rfl, by omega, by omega,
              rfl, hdrop, hck⟩
          · exact absurd h (by simp)
        · exact absurd h (by simp)

/-- Inversion of a successful raw scan: the post-marker bytes decompose
into type byte, the two overloaded bytes resolved per the ack sentinel,
exactly `length - 3` payload bytes and a matching checksum. -/
theorem scanAfter_ok_inv {input : List Nat} {f : RawFrame}
    (h : scanAfter input = .ok f) :
    ∃ t a b r3 c1 c2,
      input = t :: a :: b :: r3 ∧
      PacketSyncType.from_u8 t = some f.sync_type ∧
      f.ack = (b == 0xFF) ∧
      f.id = (if b = 0xFF then a else b) ∧
      f.length = (if b = 0xFF then 3 else a) ∧
      3 ≤ f.length ∧
      f.length - 3 ≤ r3.length ∧
      f.payload = r3.take (f.length - 3) ∧
      r3.drop (f.length - 3) = c1 :: c2 :: f.remaining ∧
      wrapSum 0xFF (t :: a :: b :: f.payload) = c1 * 256 + c2 := by
  cases input with
  | nil => simp [scanAfter] at h
  | cons t r1 =>
    cases hfu : PacketSyncType.from_u8 t with
    | none => simp [scanAfter, hfu] at h
    | some st =>
      cases r1 with
      | nil => simp [scanAfter, hfu] at h
      | cons a r2 =>
        cases r2 with
        | nil => simp [scanAfter, hfu] at h
        | cons b r3 =>
          by_cases hb : b = 0xFF
          · rw [scanAfter.eq_def] at h
            simp only [hfu, if_pos hb] at h
            obtain ⟨c1, c2, hsy, hid, hak, hln, h3, hdl, hpl, hdr, hck⟩ :=
              scanBody_ok_inv h
            exact ⟨t, a, b, r3, c1, c2, rfl, by rw [hsy]; exact hfu,
              by simp [hak, hb], by simp [hid, hb], by simp [hln, hb],
              by omega, by omega, by rw [hln]; exact hpl,
              by rw [hln]; exact hdr, hck⟩
          · rw [scanAfter.eq_def] at h
            simp only [hfu, if_neg hb] at h
            obtain ⟨c1, c2, hsy, hid, hak, hln, h3, hdl, hpl, hdr, hck⟩ :=
              scanBody_ok_inv h
            exact ⟨t, a, b, r3, c1, c2, rfl, by rw [hsy]; exact hfu,
              by simp [hak, hb], by simp [hid, hb], by simp [hln, hb],
              by omega, by omega, by rw [hln]; exact hpl,
              by rw [hln]; exact hdr, hck⟩

/-- A successful `scanBody` is stable under appending bytes: the same
frame is produced and the appended bytes land in the remainder. -/
theorem scanBody_extend {st : PacketSyncType} {t a b id len : Nat}
    {ack : Bool} {r3 e : List Nat} {f : RawFrame}
    (h : scanBody st t a b id len ack r3 = .ok f) :
    scanBody st t a b id len ack (r3 ++ e) =
      .ok ⟨f.sync_type, f.id, f.ack, f.length, f.payload, f.remaining ++ e⟩ := by
  obtain ⟨c1, c2, hsy, hid, hak, hln, h3, hdl, hpl, hdr, hck⟩ := scanBody_ok_inv h
  unfold scanBody
  rw [if_neg (by omega), if_neg (by omega),
      if_neg (by rw [List.length_append]; omega),
      List.drop_append_of_le_length hdl, hdr]
  simp only [List.cons_append]
  rw [List.take_append_of_le_length hdl, ← hpl, if_pos hck, hsy, hid, hak, hln]

/-- A successful `scanAfter` is stable under appending bytes. -/
theorem scanAfter_extend {input e : List Nat} {f : RawFrame}
    (h : scanAfter input = .ok f) :
    scanAfter (input ++ e) =
      .ok ⟨f.sync_type, f.id, f.ack, f.length, f.payload, f.remaining ++ e⟩ := by
  obtain ⟨t, a, b, r3, c1, c2, hin, hfu, -, -, -, -, -, -, -, -⟩ :=
    scanAfter_ok_inv h
  subst hin
  simp only [List.cons_append]
  rw [scanAfter.eq_def] at h
  rw [scanAfter.eq_def]
  simp only [hfu] at h ⊢
  by_cases hb : b = 0xFF
  · rw [if_pos hb] at h ⊢
    exact scanBody_extend h
  · rw [if_neg hb] at h ⊢
    exact scanBody_extend h

/-- A successful raw scan is stable under appending bytes. -/
theorem scanRaw_extend {buf e : List Nat} {f : RawFrame}
    (h : scanRaw buf = .ok f) :
    scanRaw (buf ++ e) =
      .ok ⟨f.sync_type, f.id, f.ack, f.length, f.payload, f.remaining ++ e⟩ := by
  unfold scanRaw at h ⊢
  cases hm : findMarker buf with
  | none => simp [hm] at h
  | some rest =>
    simp only [hm] at h
    rw [findMarker_extend hm]
    exact scanAfter_extend h

/-- A successful `find_msg` is stable under appending bytes: the same
packet is decoded and the appended bytes land in the remainder. -/
theorem find_msg_extend {buf e rem : List Nat} {ph : PacketHandle}
    (h : find_msg buf = .ok rem ph) :
    find_msg (buf ++ e) = .ok (rem ++ e) ph := by
  unfold find_msg at h ⊢
  cases hr : scanRaw buf with
  | ok f =>
    simp only [hr] at h
    rw [scanRaw_extend hr]
    cases hp : PacketHandle.parse f.payload f.id f.ack f.sync_type with
    | ok ph' =>
      simp only [hp] at h
      cases h
      simp [hp]
    | err => simp [hp] at h
    | panicked => simp [hp] at h
  | err => simp [hr] at h
  | fail => simp [hr] at h
  | panicked => simp [hr] at h

/-- A successful raw scan consumes at least the seven bytes of a
minimal frame. -/
theorem scanRaw_ok_length {buf : List Nat} {f : RawFrame}
    (h : scanRaw buf = .ok f) : f.remaining.length + 7 ≤ buf.length := by
  unfold scanRaw at h
  cases hm : findMarker buf with
  | none => simp [hm] at h
  | some rest =>
    simp only [hm] at h
    have hml := findMarker_some_length hm
    obtain ⟨t, a, b, r3, c1, c2, hin, -, -, -, -, h3, hdl, -, hdr, -⟩ :=
      scanAfter_ok_inv h
    subst hin
    have hlen := congrArg List.length hdr
    simp only [List.length_drop, List.length_cons] at hlen
    simp only [List.length_cons] at hml
    omega

/-- A successful `find_msg` strictly consumes input. -/
theorem find_msg_ok_length {buf rem : List Nat} {ph : PacketHandle}
    (h : find_msg buf = .ok rem ph) : rem.length < buf.length := by
  unfold find_msg at h
  cases hr : scanRaw buf with
  | ok f =>
    simp only [hr] at h
    have h7 := scanRaw_ok_length hr
    cases hp : PacketHandle.parse f.payload f.id f.ack f.sync_type with
    | ok ph' =>
      simp only [hp] at h
      cases h
      omega
    | err => simp [hp] at h
    | panicked => simp [hp] at h
  | err => simp [hr] at h
  | fail => simp [hr] at h
  | panicked => simp [hr] at h

/-- The wrapping fold equals the plain sum reduced mod `2^16`. -/
theorem wrapSum_eq_sum {s : Nat} (hs : s < 65536) (l : List Nat) :
    wrapSum s l = (s + l.sum) % 65536 := by
  induction l generalizing s with
  | nil => simp [wrapSum, Nat.mod_eq_of_lt hs]
  | cons x xs ih =>
    have := ih (s := (s + x) % 65536) (Nat.mod_lt _ (by norm_num))
    simp only [wrapSum, List.foldl_cons] at this ⊢
    rw [this, List.sum_cons]
    omega

/-- Repeated invocation of `find_msg`, as in §5 of the protocol design:
each successful scan's decoded packet is collected and scanning resumes
on the reported remainder; the first non-`ok` outcome (need more bytes,
invalid frame, or panic) stops the loop. -/
def scanSeq (buf : List Nat) : List PacketHandle :=
  match h : find_msg buf with
  | .ok rem ph => ph :: scanSeq rem
  | .err => []
  | .fail => []
  | .panicked => []
termination_by buf.length
decreasing_by exact find_msg_ok_length h

/-- The buffer retained by the caller when repeated scanning stops: on
any non-`ok` outcome nothing was consumed, so the whole current buffer
is the unconsumed tail. -/
def scanRest (buf : List Nat) : List Nat :=
  match h : find_msg buf with
  | .ok rem _ => scanRest rem
  | .err => buf
  | .fail => buf
  | .panicked => buf
termination_by buf.length
decreasing_by exact find_msg_ok_length h

theorem scanSeq_ok {buf rem : List Nat} {ph : PacketHandle}
    (h : find_msg buf = .ok rem ph) : scanSeq buf = ph :: scanSeq rem := by
  rw [scanSeq.eq_def]
  split
  · rename_i rem' ph' heq
    rw [h] at heq
    cases heq
    rfl
  all_goals rename_i heq; rw [h] at heq; cases heq

theorem scanSeq_stop {buf : List Nat}
    (h : ∀ rem ph, find_msg buf ≠ .ok rem ph) : scanSeq buf = [] := by
  rw [scanSeq.eq_def]
  split
  · rename_i rem ph heq
    exact absurd heq (h rem ph)
  all_goals rfl

theorem scanRest_ok {buf rem : List Nat} {ph : PacketHandle}
    (h : find_msg buf = .ok rem ph) : scanRest buf = scanRest rem := by
  rw [scanRest.eq_def]
  split
  · rename_i rem' ph' heq
    rw [h] at heq
    cases heq
    rfl
  all_goals rename_i heq; rw [h] at heq; cases heq

theorem scanRest_stop {buf : List Nat}
    (h : ∀ rem ph, find_msg buf ≠ .ok rem ph) : scanRest buf = buf := by
  rw [scanRest.eq_def]
  split
  · rename_i rem ph heq
    exact absurd heq (h rem ph)
  all_goals rfl

/-- Feeding a buffer in two pushes agrees with one push: the frames
drained from the first half, followed by the frames of the retained
tail with the second half appended, are the frames of the whole. -/
theorem scanSeq_two_push (h₁ h₂ : List Nat) :
    scanSeq h₁ ++ scanSeq (scanRest h₁ ++ h₂) = scanSeq (h₁ ++ h₂) := by
  cases hf : find_msg h₁ with
  | ok rem ph =>
    rw [scanSeq_ok hf, scanRest_ok hf, List.cons_append,
        scanSeq_ok (find_msg_extend hf), scanSeq_two_push rem h₂]
  | err =>
    rw [scanSeq_stop (by simp [hf]), scanRest_stop (by simp [hf]),
        List.nil_append]
  | fail =>
    rw [scanSeq_stop (by simp [hf]), scanRest_stop (by simp [hf]),
        List.nil_append]
  | panicked =>
    rw [scanSeq_stop (by simp [hf]), scanRest_stop (by simp [hf]),
        List.nil_append]
termination_by h₁.length
decreasing_by exact find_msg_ok_length hf

/-- Evaluation of `scanBody` on a buffer holding exactly the payload,
the two checksum bytes and trailing content. -/
theorem scanBody_eval {st : PacketSyncType} {t a b id len : Nat}
    {ack : Bool} {payload rest : List Nat} {c1 c2 : Nat}
    (h3 : 3 ≤ len) (hp : payload.length = len - 3) :
    scanBody st t a b id len ack (payload ++ c1 :: c2 :: rest) =
      if wrapSum 0xFF (t :: a :: b :: payload) = c1 * 256 + c2 then
        .ok ⟨st, id, ack, len, payload, rest⟩
      else .fail := by
  unfold scanBody
  rw [if_neg (by omega), if_neg (by omega),
      if_neg (by rw [List.length_append]; omega), ← hp,
      List.drop_left, List.take_left]

/-! ## Claims -/

/-- C1 (amended): decoding the payload produced by encoding `v`, with
`v`'s own role, yields `v` again for every constructible value of every
kind and sub-shape EXCEPT `VersionPacket::Response`, whose `pack`
discards the four fields (constructible means: `String` fields hold
valid UTF-8). -/
theorem claim_C1_roundtrip :
    (∀ v : InquiryPacket,
      InquiryPacket.parse v.pack v.message_type = .ok v) ∧
    (∀ v : MacPacket, v.wf = true →
      MacPacket.parse v.pack v.message_type = .ok v) ∧
    (∀ v : VersionPacket, (v = .Command ∨ v = .Ack) →
      VersionPacket.parse v.pack v.message_type = .ok v) ∧
    (∀ v : SensorCountPacket,
      SensorCountPacket.parse v.pack v.message_type = .ok v) ∧
    (∀ v : SensorListPacket, v.wf = true →
      SensorListPacket.parse v.pack v.message_type = .ok v) ∧
    (∀ v : AuthPacket,
      AuthPacket.parse v.pack v.message_type = .ok v) := by
  refine ⟨?_, ?_, ?_, ?_, ?_, ?_⟩
  · intro v; cases v <;> rfl
  · intro v hwf
    cases v with
    | Command => rfl
    | Ack => rfl
    | Response mac =>
      simp only [MacPacket.wf] at hwf
      simp [MacPacket.parse, MacPacket.pack, MacPacket.message_type, hwf]
  · intro v hv
    rcases hv with rfl | rfl <;> rfl
  · intro v; cases v <;> rfl
  · intro v hwf
    cases v with
    | Command c => rfl
    | Ack => rfl
    | Response mac =>
      simp only [SensorListPacket.wf] at hwf
      simp [SensorListPacket.parse, SensorListPacket.pack,
        SensorListPacket.message_type, hwf]
  · intro v; cases v <;> rfl

/-- C1 counterexample: the round trip fails for the
`VersionPacket::Response` sub-shape — `pack` emits an empty payload,
and re-decoding it panics on the field indexing, so the original value
is not recovered. -/
theorem claim_C1_counterexample :
    VersionPacket.parse
        (VersionPacket.pack (.Response fwVersionBytes hwVersionBytes
          hwTypeBytes magicBytes))
        (VersionPacket.message_type (.Response fwVersionBytes
          hwVersionBytes hwTypeBytes magicBytes)) = .panicked ∧
    VersionPacket.parse
        (VersionPacket.pack (.Response fwVersionBytes hwVersionBytes
          hwTypeBytes magicBytes))
        (VersionPacket.message_type (.Response fwVersionBytes
          hwVersionBytes hwTypeBytes magicBytes)) ≠
      .ok (.Response fwVersionBytes hwVersionBytes hwTypeBytes
        magicBytes) := by
  constructor
  · decide
  · decide

/-- C1 witness: concrete round trips through the amended theorem. -/
theorem claim_C1_witness :
    MacPacket.parse (MacPacket.pack (.Response macBytes))
      (MacPacket.message_type (.Response macBytes)) =
      .ok (.Response macBytes) ∧
    VersionPacket.parse (VersionPacket.pack .Command)
      (VersionPacket.message_type .Command) = .ok .Command ∧
    SensorListPacket.parse (SensorListPacket.pack (.Response sensorMacBytes))
      (SensorListPacket.message_type (.Response sensorMacBytes)) =
      .ok (.Response sensorMacBytes) :=
  ⟨claim_C1_roundtrip.2.1 (.Response macBytes) (by decide),
   claim_C1_roundtrip.2.2.1 .Command (Or.inl rfl),
   claim_C1_roundtrip.2.2.2.2.1 (.Response sensorMacBytes) (by decide)⟩

/-- C2: `find_msg` does NOT terminate normally on every input — a
syntactically valid frame with the unregistered identifier `0x99`
panics through `.expect("Failed to parse")`, and a declared length of 2
panics on the `u8` underflow in `take(length - 3)`. -/
theorem claim_C2_panics :
    find_msg [0x55, 0xAA, 0x43, 0x03, 0x99, 0x01, 0xDE] = .panicked ∧
    find_msg [0x55, 0xAA, 0x43, 0x02, 0x00] = .panicked := by
  constructor
  · decide
  · decide

/-- C5 counterexample: scanning `55 AA 53 03 15 01 6A` yields
`Auth/Response` — identifier `0x15` is Auth's response identifier —
not the claimed `Auth/Command{completion = 1}`. -/
theorem claim_C5_counterexample :
    find_msg [0x55, 0xAA, 0x53, 0x03, 0x15, 0x01, 0x6A] =
      .ok [] ⟨.AuthPacket .Response, .Async⟩ ∧
    (⟨.AuthPacket .Response, .Async⟩ : PacketHandle) ≠
      ⟨.AuthPacket (.Command 1), .Async⟩ := by
  constructor
  · decide
  · decide

/-- C5 (amended): scanning `55 AA 53 03 15 01 6A` yields exactly
`Auth/Response` (empty payload sub-shape), with sync class Async, the
checksum validating and the whole buffer consumed. -/
theorem claim_C5_scenario1 :
    find_msg [0x55, 0xAA, 0x53, 0x03, 0x15, 0x01, 0x6A] =
      .ok [] ⟨.AuthPacket .Response, .Async⟩ := by
  decide

/-- C7: a Version response payload with fewer than four space-separated
fields makes `VersionPacket::parse` panic (index out of bounds) instead
of returning a represented error — shown on the payload `"abc"` and on
a full frame carrying it — while the scenario-2 bytes do decode to the
four claimed fields. -/
theorem claim_C7_version_decode :
    VersionPacket.parse abcBytes .Response = .panicked ∧
    find_msg [0x55, 0xAA, 0x53, 0x06, 0x17, 0x61, 0x62, 0x63, 0x02, 0x95] =
      .panicked ∧
    find_msg [0x55, 0xAA, 0x53, 0x1C, 0x17, 0x30, 0x2E, 0x30, 0x2E, 0x30,
        0x2E, 0x33, 0x30, 0x20, 0x56, 0x31, 0x2E, 0x34, 0x20, 0x44, 0x6F,
        0x6E, 0x67, 0x6C, 0x65, 0x20, 0x55, 0x44, 0x33, 0x55, 0x07, 0xC5] =
      .ok [] ⟨.VersionPacket (.Response fwVersionBytes hwVersionBytes
        hwTypeBytes magicBytes), .Async⟩ := by
  refine ⟨by decide, by decide, by decide⟩

/-- C9: feeding any buffer split at any offset through the scanner in
two pushes — draining the first half, retaining the unconsumed tail,
appending the second half and draining again — yields the same decoded
frame sequence as draining the whole buffer at once. -/
theorem claim_C9_split_feed (h₁ h₂ : List Nat) :
    scanSeq h₁ ++ scanSeq (scanRest h₁ ++ h₂) = scanSeq (h₁ ++ h₂) :=
  scanSeq_two_push h₁ h₂

/-- C10: the twelve registered command/response identifiers are exactly
the documented table, pairwise distinct, and none collides with the
ack sentinel `0xFF` — so a wire identifier resolves to at most one
(variant, role) pair and dispatch order is immaterial. -/
theorem claim_C10_distinct_ids :
    registeredIds =
      [0x27, 0x28, 0x04, 0x05, 0x16, 0x17, 0x2E, 0x2F, 0x30, 0x31, 0x14, 0x15] ∧
    registeredIds.Nodup ∧ (0xFF : Nat) ∉ registeredIds := by
  refine ⟨by decide, by decide, by decide⟩

/-- C3: for a frame starting at the marker with a recognized type byte,
a resolved length of at least 3 and exactly `length - 3` payload bytes,
the scanner accepts iff the trailing 16-bit big-endian checksum equals
the 16-bit wraparound sum of every byte from the type byte through the
end of the payload, pre-seeded with `0x00FF`; any mismatch yields the
invalid-frame failure — in particular flipping the last checksum byte
of scenario 1 yields a failure, not a different packet. -/
theorem claim_C3_checksum :
    (∀ (t a b c1 c2 len : Nat) (payload rest : List Nat),
      (t = 0x43 ∨ t = 0x53) →
      len = (if b = 0xFF then 3 else a) →
      3 ≤ len →
      payload.length = len - 3 →
      c1 < 256 → c2 < 256 →
      ((∃ f, scanRaw (0x55 :: 0xAA :: t :: a :: b ::
          (payload ++ c1 :: c2 :: rest)) = .ok f) ↔
        (0xFF + (t + a + b + payload.sum)) % 65536 = c1 * 256 + c2) ∧
      ((0xFF + (t + a + b + payload.sum)) % 65536 ≠ c1 * 256 + c2 →
        scanRaw (0x55 :: 0xAA :: t :: a :: b ::
          (payload ++ c1 :: c2 :: rest)) = .fail)) ∧
    find_msg [0x55, 0xAA, 0x53, 0x03, 0x15, 0x01, 0x6B] = .fail := by
  constructor
  · intro t a b c1 c2 len payload rest ht hlen h3 hpl hc1 hc2
    have hmark : findMarker (0x55 :: 0xAA :: t :: a :: b ::
        (payload ++ c1 :: c2 :: rest)) =
        some (t :: a :: b :: (payload ++ c1 :: c2 :: rest)) := by
      rw [findMarker]
      simp
    have hst : ∃ st, PacketSyncType.from_u8 t = some st := by
      rcases ht with rfl | rfl
      · exact ⟨.Sync, by simp [PacketSyncType.from_u8]⟩
      · exact ⟨.Async, by simp [PacketSyncType.from_u8]⟩
    obtain ⟨st, hstv⟩ := hst
    have hsa : scanAfter (t :: a :: b :: (payload ++ c1 :: c2 :: rest)) =
        if wrapSum 0xFF (t :: a :: b :: payload) = c1 * 256 + c2 then
          .ok ⟨st, (if b = 0xFF then a else b), (b == 0xFF), len, payload, rest⟩
        else .fail := by
      rw [scanAfter.eq_def]
      simp only [hstv]
      by_cases hb : b = 0xFF
      · rw [if_pos hb] at hlen ⊢
        rw [@scanBody_eval st t a b a 3 true payload rest c1 c2
          (by omega) (by omega)]
        simp [hb, hlen]
      · rw [if_neg hb] at hlen ⊢
        rw [@scanBody_eval st t a b b a false payload rest c1 c2
          (by omega) (by omega)]
        have hbe : (b == 0xFF) = false := by simp [hb]
        rw [hbe, hlen, if_neg hb]
    have hscan : scanRaw (0x55 :: 0xAA :: t :: a :: b ::
        (payload ++ c1 :: c2 :: rest)) =
        if wrapSum 0xFF (t :: a :: b :: payload) = c1 * 256 + c2 then
          .ok ⟨st, (if b = 0xFF then a else b), (b == 0xFF), len, payload, rest⟩
        else .fail := by
      unfold scanRaw
      rw [hmark]
      exact hsa
    have hcksum : wrapSum 0xFF (t :: a :: b :: payload) =
        (0xFF + (t + a + b + payload.sum)) % 65536 := by
      rw [wrapSum_eq_sum (by norm_num)]
      simp only [List.sum_cons]
      omega
    constructor
    · constructor
      · rintro ⟨f, hf⟩
        by_contra hne
        rw [hscan, if_neg (by rw [hcksum]; exact hne)] at hf
        exact absurd hf (by simp)
      · intro hck
        rw [hscan, if_pos (by rw [hcksum]; exact hck)]
        exact ⟨_, rfl⟩
    · intro hne
      rw [hscan, if_neg (by rw [hcksum]; exact hne)]
  · decide

/-- C3 witness: the theorem applied to the scenario-1 frame, whose
checksum matches. -/
theorem claim_C3_witness :
    ((∃ f, scanRaw (0x55 :: 0xAA :: 0x53 :: 0x03 :: 0x15 ::
        ([] ++ 0x01 :: 0x6A :: [])) = .ok f) ↔
      (0xFF + (0x53 + 0x03 + 0x15 + List.sum [])) % 65536 =
        0x01 * 256 + 0x6A) ∧
    ((0xFF + (0x53 + 0x03 + 0x15 + List.sum [])) % 65536 ≠
        0x01 * 256 + 0x6A →
      scanRaw (0x55 :: 0xAA :: 0x53 :: 0x03 :: 0x15 ::
        ([] ++ 0x01 :: 0x6A :: [])) = .fail) :=
  claim_C3_checksum.1 0x53 0x03 0x15 0x01 0x6A 3 [] []
    (Or.inr rfl) (by decide) (by decide) (by decide) (by decide) (by decide)

/-- C4: for every scanned frame, the overloaded pair resolves per the
ack sentinel — `ack_or_id = 0xFF` makes it an acknowledgement of
command `length_or_id` with effective length 3 and empty payload,
otherwise `length_or_id` is the length and `ack_or_id` the identifier —
and the concrete ack bytes `55 AA 53 2E FF 02 7F` decode to
SensorCount/Ack. -/
theorem claim_C4_ack_resolution :
    (∀ (buf : List Nat) (t a b : Nat) (r3 : List Nat) (f : RawFrame),
      findMarker buf = some (t :: a :: b :: r3) →
      scanRaw buf = .ok f →
      ((b = 0xFF →
          f.ack = true ∧ f.id = a ∧ f.length = 3 ∧ f.payload = []) ∧
       (b ≠ 0xFF →
          f.ack = false ∧ f.id = b ∧ f.length = a))) ∧
    find_msg [0x55, 0xAA, 0x53, 0x2E, 0xFF, 0x02, 0x7F] =
      .ok [] ⟨.SensorCountPacket .Ack, .Async⟩ := by
  constructor
  · intro buf t a b r3 f hm hok
    unfold scanRaw at hok
    rw [hm] at hok
    have hok' : scanAfter (t :: a :: b :: r3) = .ok f := hok
    obtain ⟨t', a', b', r3', c1, c2, hin, hfu, hak, hid, hln, h3, hdl,
      hpl, hdr, hck⟩ := scanAfter_ok_inv hok'
    simp only [List.cons.injEq] at hin
    obtain ⟨rfl, rfl, rfl, rfl⟩ := hin
    constructor
    · intro hb
      refine ⟨by simp [hak, hb], by simp [hid, hb], by simp [hln, hb], ?_⟩
      rw [hpl, hln, if_pos hb]
      simp
    · intro hb
      exact ⟨by simp [hak, hb], by simp [hid, hb], by simp [hln, hb]⟩
  · decide

/-- C4 witness: the resolution applied to the concrete ack frame. -/
theorem claim_C4_witness :
    (RawFrame.mk .Async 0x2E true 3 [] []).ack = true ∧
    (RawFrame.mk .Async 0x2E true 3 [] []).id = 0x2E ∧
    (RawFrame.mk .Async 0x2E true 3 [] []).length = 3 ∧
    (RawFrame.mk .Async 0x2E true 3 [] []).payload = [] :=
  (claim_C4_ack_resolution.1 [0x55, 0xAA, 0x53, 0x2E, 0xFF, 0x02, 0x7F]
    0x53 0x2E 0xFF [0x02, 0x7F] (RawFrame.mk .Async 0x2E true 3 [] [])
    (by decide) (by decide)).1 rfl

/-- C6: a frame whose resolved declared length is below 2 is rejected
as a failure, never truncated; and every frame the scanner accepts
carries a payload of exactly `declared_length - 3` bytes. -/
theorem claim_C6_length_guard :
    (∀ (buf : List Nat) (t a b : Nat) (r3 : List Nat),
      findMarker buf = some (t :: a :: b :: r3) →
      (t = 0x43 ∨ t = 0x53) →
      (if b = 0xFF then 3 else a) < 2 →
      scanRaw buf = .fail) ∧
    (∀ (buf : List Nat) (f : RawFrame),
      scanRaw buf = .ok f → f.payload.length = f.length - 3) := by
  constructor
  · intro buf t a b r3 hm ht hlt
    have hb : ¬ b = 0xFF := by
      intro hb
      rw [if_pos hb] at hlt
      omega
    rw [if_neg hb] at hlt
    unfold scanRaw
    rw [hm]
    show scanAfter (t :: a :: b :: r3) = .fail
    rw [scanAfter.eq_def]
    rcases ht with rfl | rfl
    · simp only [PacketSyncType.from_u8]
      norm_num [hb]
      unfold scanBody
      rw [if_pos hlt]
    · simp only [PacketSyncType.from_u8]
      norm_num [hb]
      unfold scanBody
      rw [if_pos hlt]
  · intro buf f hok
    unfold scanRaw at hok
    cases hm : findMarker buf with
    | none => rw [hm] at hok; exact absurd hok (by simp)
    | some rest =>
      rw [hm] at hok
      have hok' : scanAfter rest = .ok f := hok
      obtain ⟨t, a, b, r3, c1, c2, hin, hfu, hak, hid, hln, h3, hdl,
        hpl, hdr, hck⟩ := scanAfter_ok_inv hok'
      rw [hpl, List.length_take]
      omega

/-- C6 witness: a declared length of 1 is rejected, and the accepted
scenario-1 frame has a `3 - 3 = 0`-byte payload. -/
theorem claim_C6_witness :
    scanRaw [0x55, 0xAA, 0x53, 0x01, 0x02, 0x03] = .fail ∧
    (RawFrame.mk .Async 0x15 false 3 [] []).payload.length =
      (RawFrame.mk .Async 0x15 false 3 [] []).length - 3 :=
  ⟨claim_C6_length_guard.1 [0x55, 0xAA, 0x53, 0x01, 0x02, 0x03]
      0x53 0x01 0x02 [0x03] (by decide) (Or.inr rfl) (by decide),
   claim_C6_length_guard.2 [0x55, 0xAA, 0x53, 0x03, 0x15, 0x01, 0x6A]
      (RawFrame.mk .Async 0x15 false 3 [] []) (by decide)⟩

/-- C8: scanning the encoding of a valid frame — marker, type byte,
length byte = packet length + 2, packet bytes (registered non-ack
identifier then payload), big-endian checksum — followed by arbitrary
trailing bytes decodes the frame's value, consumes exactly the encoding
and leaves the trailing bytes as the remainder. -/
theorem claim_C8_encode_scan (st : PacketSyncType) (id : Nat)
    (payload garbage : List Nat) (p : PacketPayload)
    (hid : id ≠ 0xFF)
    (hlen : payload.length + 3 ≤ 255)
    (hp : PacketPayload.parse payload id false = .ok p) :
    find_msg (sendBytes st (id :: payload) ++ garbage) =
      .ok garbage ⟨p, st⟩ := by
  have hfu : PacketSyncType.from_u8 (typeByte st) = some st := by
    cases st <;> simp [typeByte, PacketSyncType.from_u8]
  have hck_lt : wrapSum 0 (0xAA :: 0x55 :: typeByte st ::
      (payload.length + 3) :: id :: payload) < 65536 := by
    rw [wrapSum_eq_sum (by norm_num)]
    exact Nat.mod_lt _ (by norm_num)
  set ck := wrapSum 0 (0xAA :: 0x55 :: typeByte st ::
      (payload.length + 3) :: id :: payload) with hckdef
  have hbytes : sendBytes st (id :: payload) ++ garbage =
      0xAA :: 0x55 :: typeByte st :: (payload.length + 3) :: id ::
        (payload ++ ck / 256 % 256 :: ck % 256 :: garbage) := by
    have hlb : (((id :: payload).length % 256 + 2) % 256) =
        payload.length + 3 := by
      simp only [List.length_cons]
      omega
    simp only [sendBytes, hlb, hckdef]
    simp [List.cons_append, List.append_assoc]
  have hmark : findMarker (0xAA :: 0x55 :: typeByte st ::
      (payload.length + 3) :: id ::
        (payload ++ ck / 256 % 256 :: ck % 256 :: garbage)) =
      some (typeByte st :: (payload.length + 3) :: id ::
        (payload ++ ck / 256 % 256 :: ck % 256 :: garbage)) := by
    rw [findMarker]
    simp
  have hcs : wrapSum 0xFF (typeByte st :: (payload.length + 3) :: id ::
      payload) = ck := by
    rw [wrapSum_eq_sum (by norm_num), hckdef,
        wrapSum_eq_sum (by norm_num)]
    simp only [List.sum_cons]
    omega
  have hc12 : ck / 256 % 256 * 256 + ck % 256 = ck := by omega
  have hraw : scanRaw (0xAA :: 0x55 :: typeByte st ::
      (payload.length + 3) :: id ::
        (payload ++ ck / 256 % 256 :: ck % 256 :: garbage)) =
      .ok ⟨st, id, false, payload.length + 3, payload, garbage⟩ := by
    unfold scanRaw
    rw [hmark]
    show scanAfter _ = _
    rw [scanAfter.eq_def]
    simp only [hfu]
    rw [if_neg hid,
        @scanBody_eval st (typeByte st) (payload.length + 3) id id
          (payload.length + 3) false payload garbage
          (ck / 256 % 256) (ck % 256) (by omega) (by omega),
        if_pos (by rw [hcs, hc12])]
  rw [hbytes]
  unfold find_msg
  rw [hraw]
  simp [PacketHandle.parse, hp]

/-- C8 witness: the encoded Auth response frame scans back with two
trailing bytes untouched. -/
theorem claim_C8_witness :
    find_msg (sendBytes .Async (0x15 :: []) ++ [0x09, 0x09]) =
      .ok [0x09, 0x09] ⟨.AuthPacket .Response, .Async⟩ :=
  claim_C8_encode_scan .Async 0x15 [] [0x09, 0x09] (.AuthPacket .Response)
    (by decide) (by decide) (by decide)
